import Mathlib

/-!
Verification of the feature-engineering pipeline in `src/features.py` of the
AFL disposal-probability tracker.  The pipeline consumes a flat game-log table
(one row per player appearance), a player-by-opponent career-average table and
a player-by-venue career-average table, and produces a model-ready feature
table.  We embed the pandas transformations shallowly: a DataFrame becomes a
`List` of records, `NaN`/missing values become `Option`, floats become `ℚ`
(the one exception, the rolling standard deviation, is the real square root of
a rational sample variance and is exposed as a derived `Option ℝ` accessor).
-/

set_option autoImplicit false

namespace AFL

/-- One row of the raw game-log table `all_games.csv`.  The schema is fixed by
the scraper (`data_loader.get_all_player_data`): columns `player`, `season`,
`opponent`, `round`, `result`, `disposals`, `game_pct`.  `round` is a string
(numeric label or finals code); `game_pct` may be missing (empty cell / NaN);
`disposals` is always an integer (rows with an empty disposal cell are never
emitted by the scraper). -/
structure GameRecord where
  player : String
  season : Int
  opponent : String
  round : String
  result : String
  disposals : Int
  game_pct : Option ℚ
  deriving DecidableEq, Repr

/-- A cross-reference table (`opponent_stats.csv` / `venue_stats.csv`) read
with `index_col=0`: a player-indexed, opponent-(or venue-)columned sparse grid
of career disposal averages.  `cells` lists the non-NaN cells; a (row, column)
pair inside the grid but absent from `cells` is a NaN cell. -/
structure StatTable where
  index : List String
  columns : List String
  cells : List ((String × String) × ℚ)
  deriving DecidableEq, Repr

/-- `MIN_GAME_PCT = 50` from `features.py`. -/
def MIN_GAME_PCT : ℚ := 50

/-- `DISPOSAL_TARGETS = [15, 20, 25]` from `features.py`. -/
def DISPOSAL_TARGETS : List Nat := [15, 20, 25]

/-- `games_df[games_df["game_pct"] >= MIN_GAME_PCT]`: a NaN `game_pct`
compares as False in pandas, so missing values are discarded. -/
def pct_filtered (games : List GameRecord) : List GameRecord :=
  games.filter fun r =>
    match r.game_pct with
    | some p => decide (MIN_GAME_PCT ≤ p)
    | none => false

/-- `games_df.groupby("player")["disposals"].mean()` restricted to one
player: the mean disposal count over that player's rows, `none` when the
player has no rows. -/
def playerMean (rows : List GameRecord) (p : String) : Option ℚ :=
  let ds := (rows.filter fun r => r.player == p).map fun r => (r.disposals : ℚ)
  if ds.length = 0 then none else some (ds.sum / ds.length)

/-- The pure part of `load_data`: the game-time filter followed by the
high-usage filter `player_averages[player_averages >= 8]` computed over the
already game-time-filtered rows (the literal threshold 8 appears in the code;
the comment next to it says 10, the code says 8). -/
def load_data_filter (games : List GameRecord) : List GameRecord :=
  (pct_filtered games).filter fun r =>
    match playerMean (pct_filtered games) r.player with
    | some m => decide (8 ≤ m)
    | none => false

/-- Strict lexicographic order on character lists by code point — how Python
compares the `round` strings held in the sorted column. -/
def charListLt : List Char → List Char → Bool
  | [], [] => false
  | [], _ :: _ => true
  | _ :: _, [] => false
  | a :: as, b :: bs =>
    if a.toNat < b.toNat then true
    else if a.toNat = b.toNat then charListLt as bs
    else false

/-- Non-strict version of `charListLt`. -/
def charListLe : List Char → List Char → Bool
  | [], _ => true
  | _ :: _, [] => false
  | a :: as, b :: bs =>
    if a.toNat < b.toNat then true
    else if a.toNat = b.toNat then charListLe as bs
    else false

/-- The sort key of `games_df.sort_values(["player", "season", "round"])`:
lexicographic on (player, season, round), with the string columns compared by
code point.  Note `round` is compared AS A STRING — "10" sorts before "2". -/
def rowLe (a b : GameRecord) : Bool :=
  if a.player = b.player then
    if a.season = b.season then charListLe a.round.data b.round.data
    else decide (a.season < b.season)
  else charListLt a.player.data b.player.data

/-- Stable insertion of a row into a `rowLe`-sorted list (ties keep the
inserted element first). -/
def insertGame (r : GameRecord) : List GameRecord → List GameRecord
  | [] => [r]
  | x :: xs => if rowLe r x then r :: x :: xs else x :: insertGame r xs

/-- `games_df.sort_values(["player", "season", "round"])`.  A multi-key
`sort_values` is a stable lexicographic sort (numpy `lexsort`), which any
stable sort by the same total preorder reproduces; we use insertion sort. -/
def sortGames (games : List GameRecord) : List GameRecord :=
  games.foldr insertGame []

/-- The last `n` elements of a list: the rolling window of width `n` over the
values preceding the current row. -/
def lastN (n : Nat) (l : List ℚ) : List ℚ :=
  l.drop (l.length - n)

/-- `x.shift(1).rolling(window=w, min_periods=minp).mean()` evaluated at a row
with prior (shifted, non-NaN) values `l`: the mean of the last `w` prior
values when at least `minp` of them exist, else NaN. -/
def rollingMean (w minp : Nat) (l : List ℚ) : Option ℚ :=
  if minp ≤ (lastN w l).length then some ((lastN w l).sum / (lastN w l).length)
  else none

/-- The sample variance (`ddof=1`, as pandas `rolling(...).std` uses) of a
list of values. -/
def sampleVar (l : List ℚ) : ℚ :=
  let n : ℚ := l.length
  ((l.map fun x => (x - l.sum / n) ^ 2).sum) / (n - 1)

/-- The pre-square-root part of `x.shift(1).rolling(w, min_periods=minp).std()`:
the sample variance of the window, gated by `min_periods`.  The code's column
holds the square root of this value (see `rollingStd5`). -/
def rollingVar (w minp : Nat) (l : List ℚ) : Option ℚ :=
  if minp ≤ (lastN w l).length then some (sampleVar (lastN w l)) else none

/-- A game row extended with the three rolling columns added by
`add_rolling_features`.  `rolling_var_5` stores the sample variance whose
square root is the code's `rolling_std_5` column; the square root is a
strictly monotone injection on the stored value, exposed as `rollingStd5`,
kept out of the record so the record stays decidably comparable. -/
structure RollingRow extends GameRecord where
  rolling_avg_5 : Option ℚ
  rolling_avg_10 : Option ℚ
  rolling_var_5 : Option ℚ
  deriving DecidableEq, Repr

/-- The code's `rolling_std_5` column: the square root of the windowed sample
variance (`none` exactly when the variance is `none`). -/
noncomputable def rollingStd5 (r : RollingRow) : Option ℝ :=
  r.rolling_var_5.map fun q => Real.sqrt (q : ℚ)

/-- The disposal counts of the rows before position `i` of the sorted frame
that belong to player `p` — the values `shift(1)` exposes to the window of the
row at position `i` under `groupby("player")`. -/
def featPrior (s : List GameRecord) (i : Nat) (p : String) : List ℚ :=
  ((s.take i).filter fun g => g.player == p).map fun g => (g.disposals : ℚ)

/-- The rolling-feature row built for the game at position `i` of the sorted
frame `s`: windows of width 5/10/5 with `min_periods` 3/5/3 over the player's
prior disposal counts. -/
def rollingRowAt (s : List GameRecord) (i : Nat) (r : GameRecord) : RollingRow :=
  let pr := featPrior s i r.player
  { toGameRecord := r
    rolling_avg_5 := rollingMean 5 3 pr
    rolling_avg_10 := rollingMean 10 5 pr
    rolling_var_5 := rollingVar 5 3 pr }

/-- Pair each element of a list with its position, starting at `n`. -/
def idxFrom (n : Nat) : List GameRecord → List (Nat × GameRecord)
  | [] => []
  | a :: as => (n, a) :: idxFrom (n + 1) as

/-- `add_rolling_features`: sort by (player, season, round-string), then give
each row the rolling mean of its previous 5 (min 3) and previous 10 (min 5)
disposal counts and the rolling deviation of its previous 5 (min 3), computed
per player via `groupby("player")` + `shift(1)`. -/
def add_rolling_features (games : List GameRecord) : List RollingRow :=
  let s := sortGames games
  (idxFrom 0 s).map fun p => rollingRowAt s p.1 p.2

/-- `get_opponent_da`: look up the row's player and opponent in the opponent
cross-reference table; `NaN` (here `none`) when the player is not in the
index, the opponent is not in the columns, or the cell itself is NaN. -/
def get_opponent_da (t : StatTable) (player opponent : String) : Option ℚ :=
  if player ∈ t.index ∧ opponent ∈ t.columns then t.cells.lookup (player, opponent)
  else none

/-- `get_venue_da`: `row["venue"] if "venue" in row else np.nan`, then NaN
when the venue is missing, and otherwise the same guarded lookup as for
opponents, against the venue table. -/
def get_venue_da (t : StatTable) (player : String) (venue : Option String) : Option ℚ :=
  match venue with
  | none => none
  | some v => if player ∈ t.index ∧ v ∈ t.columns then t.cells.lookup (player, v) else none

/-- The venue of a game row.  The game-log schema written by the scraper
(`data_loader.get_all_player_data`) has columns player, season, opponent,
round, result, disposals, game_pct and no venue column, so the membership
test `"venue" in row` in `get_venue_da` is always False. -/
def rowVenue (_ : GameRecord) : Option String := none

/-- A row extended with the two cross-reference columns. -/
structure OppVenueRow extends RollingRow where
  career_da_vs_opponent : Option ℚ
  career_da_at_venue : Option ℚ
  deriving DecidableEq, Repr

/-- `add_opponent_venue_features`: row-wise application of the two lookup
functions; every input row is retained. -/
def add_opponent_venue_features (opp ven : StatTable) (rows : List RollingRow) :
    List OppVenueRow :=
  rows.map fun r =>
    { toRollingRow := r
      career_da_vs_opponent := get_opponent_da opp r.player r.opponent
      career_da_at_venue := get_venue_da ven r.player (rowVenue r.toGameRecord) }

/-- A row extended with the binary target columns, one per configured
threshold: `hits` holds the pairs (t, hit_t_disposals). -/
structure TargetRow extends OppVenueRow where
  hits : List (Nat × Nat)
  deriving DecidableEq, Repr

/-- `add_target_variables`: for each threshold in `DISPOSAL_TARGETS`, the
column `(games_df["disposals"] >= target).astype(int)`. -/
def add_target_variables (rows : List OppVenueRow) : List TargetRow :=
  rows.map fun r =>
    { toOppVenueRow := r
      hits := DISPOSAL_TARGETS.map fun t =>
        (t, if (t : Int) ≤ r.disposals then 1 else 0) }

/-- The decimal value of a digit string — `int(round_str)` on a string that
passed `isdigit()`. -/
def natOfDigits (s : String) : Nat :=
  s.data.foldl (fun n c => 10 * n + (c.toNat - 48)) 0

/-- `round_str.isdigit()`: non-empty and all digits. -/
def isNumStr (s : String) : Bool :=
  !s.data.isEmpty && s.data.all Char.isDigit

/-- `str.strip()`: drop leading and trailing whitespace. -/
def pyStrip (s : String) : String :=
  ⟨(((s.data.dropWhile Char.isWhitespace).reverse.dropWhile Char.isWhitespace).reverse)⟩

/-- `parse_round` from `add_home_away_feature`: numeric labels to their
integer value; finals codes QF/EF to 25, SF to 26, PF to 27, GF to 28;
anything else to NaN.  The input is stripped first. -/
def parse_round (s : String) : Option Nat :=
  let t := pyStrip s
  if isNumStr t then some (natOfDigits t)
  else if t = "QF" then some 25
  else if t = "EF" then some 25
  else if t = "SF" then some 26
  else if t = "PF" then some 27
  else if t = "GF" then some 28
  else none

/-- A row extended with the normalized round ordinal. -/
structure FinalRow extends TargetRow where
  round_num : Option Nat
  deriving DecidableEq, Repr

/-- `add_home_away_feature`: adds `round_num = parse_round(round)`; the
home/away part of the function is an admitted placeholder that adds nothing
else. -/
def add_home_away_feature (rows : List TargetRow) : List FinalRow :=
  rows.map fun r => { toTargetRow := r, round_num := parse_round r.round }

/-- The table after every enrichment stage of `build_features`, before the
completeness gate. -/
def enriched_table (games : List GameRecord) (opp ven : StatTable) : List FinalRow :=
  add_home_away_feature (add_target_variables
    (add_opponent_venue_features opp ven (add_rolling_features (load_data_filter games))))

/-- The pure core of `build_features`: all enrichment stages, then the single
`dropna(subset=["rolling_avg_5"])` completeness gate. -/
def build_features_pipeline (games : List GameRecord) (opp ven : StatTable) :
    List FinalRow :=
  (enriched_table games opp ven).filter fun r => r.rolling_avg_5.isSome

/-- `build_features` including artifact loading: `load_data` reads the three
CSV artifacts with no exception handling, so a missing or unreadable artifact
(`none`) propagates and the run produces no table at all; when all three load,
the pipeline is total and always yields a table. -/
def build_features (games : Option (List GameRecord)) (opp ven : Option StatTable) :
    Option (List FinalRow) :=
  match games, opp, ven with
  | some g, some o, some v => some (build_features_pipeline g o v)
  | _, _, _ => none

/-- Modelled from the spec, for stating the ordering claims: game `a` is
chronologically strictly earlier than game `b` for the same player — earlier
season, or same season and strictly smaller round ordinal, where the round
ordinal is the spec's round order (numeric rounds at their integer value,
finals codes EF/QF at 25, SF 26, PF 27, GF 28, exactly the mapping of
`parse_round`). -/
def specChronEarlier (a b : GameRecord) : Bool :=
  a.player == b.player &&
    (a.season < b.season ||
      (a.season == b.season &&
        match parse_round a.round, parse_round b.round with
        | some x, some y => decide (x < y)
        | _, _ => false))

/-! ### Concrete tables used to exercise the pipeline -/

/-- A 2022 game of player "A" against "X" with the given round label and
disposal count, at 80% game time. -/
def gA (rd : String) (d : Int) : GameRecord :=
  { player := "A", season := 2022, opponent := "X", round := rd, result := "W",
    disposals := d, game_pct := some 80 }

/-- Five games of one player in one season, rounds 1, 2, 10, 11, 12. -/
def rowsA : List GameRecord :=
  [gA "1" 10, gA "2" 99, gA "10" 20, gA "11" 20, gA "12" 20]

/-- `rowsA` with only the round-12 game's disposal count changed. -/
def rowsB : List GameRecord :=
  [gA "1" 10, gA "2" 99, gA "10" 20, gA "11" 20, gA "12" 40]

/-- Four games of one player, rounds 1, 2, 10, 11: the round-2 game has one
chronologically earlier game but sorts last among the four round strings. -/
def rowsC : List GameRecord :=
  [gA "1" 10, gA "2" 99, gA "10" 20, gA "11" 14]

/-- Four games with single-digit rounds (string order = chronological
order). -/
def rowsD : List GameRecord :=
  [gA "1" 10, gA "2" 12, gA "3" 14, gA "4" 18]

/-- Three numbered games followed by a game with an unrecognized round
label. -/
def rowsE : List GameRecord :=
  [gA "1" 10, gA "2" 12, gA "3" 14, gA "TBD" 18]

/-- An empty cross-reference table. -/
def emptyT : StatTable := ⟨[], [], []⟩

/-- A cross-reference table whose grid contains ("P", "O") but whose cell
there is NaN. -/
def oppT : StatTable := ⟨["P"], ["O"], []⟩

/-- A sentinel game row (only fills `List.getD` defaults at in-range
indices). -/
def dummyGame : GameRecord :=
  { player := "", season := 0, opponent := "", round := "", result := "",
    disposals := 0, game_pct := none }

/-- A sentinel rolling row. -/
def dummyRow : RollingRow := rollingRowAt [] 0 dummyGame

/-- An enriched row with 20 disposals, ready for the target labeler. -/
def rA20 : OppVenueRow :=
  { toRollingRow :=
      { toGameRecord := gA "1" 20
        rolling_avg_5 := none, rolling_avg_10 := none, rolling_var_5 := none }
    career_da_vs_opponent := none, career_da_at_venue := none }

/-! ### Window lemmas -/

theorem lastN_length (n : Nat) (l : List ℚ) : (lastN n l).length = min l.length n := by
  simp only [lastN, List.length_drop]
  omega

theorem lastN_of_length_le (n : Nat) (l : List ℚ) (h : l.length ≤ n) : lastN n l = l := by
  simp [lastN, Nat.sub_eq_zero_of_le h]

theorem rollingMean_eq_none_iff (w minp : Nat) (l : List ℚ) (hmw : minp ≤ w) :
    rollingMean w minp l = none ↔ l.length < minp := by
  have hl := lastN_length w l
  unfold rollingMean
  split
  · simp only [reduceCtorEq, false_iff]
    omega
  · simp only [true_iff]
    omega

theorem rollingMean_of_length_le (w minp : Nat) (l : List ℚ)
    (h1 : l.length ≤ w) (h2 : minp ≤ l.length) :
    rollingMean w minp l = some (l.sum / l.length) := by
  unfold rollingMean
  rw [lastN_of_length_le w l h1]
  simp [h2]

theorem rollingVar_eq_none_iff (w minp : Nat) (l : List ℚ) (hmw : minp ≤ w) :
    rollingVar w minp l = none ↔ l.length < minp := by
  have hl := lastN_length w l
  unfold rollingVar
  split
  · simp only [reduceCtorEq, false_iff]
    omega
  · simp only [true_iff]
    omega

theorem rollingStd5_eq_none_iff (r : RollingRow) :
    rollingStd5 r = none ↔ r.rolling_var_5 = none := by
  simp [rollingStd5]

/-! ### Indexing lemmas for the rolling stage -/

theorem idxFrom_length (l : List GameRecord) (n : Nat) :
    (idxFrom n l).length = l.length := by
  induction l generalizing n with
  | nil => rfl
  | cons a as ih => simp [idxFrom, ih]

theorem idxFrom_get (l : List GameRecord) (n i : Nat)
    (h : i < (idxFrom n l).length) (h2 : i < l.length) :
    (idxFrom n l).get ⟨i, h⟩ = (n + i, l.get ⟨i, h2⟩) := by
  induction l generalizing n i with
  | nil => exact absurd h2 (Nat.not_lt_zero i)
  | cons a as ih =>
    cases i with
    | zero => rfl
    | succ j =>
      have hj : j < (idxFrom (n + 1) as).length := by
        simpa [idxFrom] using h
      have hj2 : j < as.length := Nat.lt_of_succ_lt_succ h2
      have : (idxFrom n (a :: as)).get ⟨j + 1, h⟩ = (idxFrom (n + 1) as).get ⟨j, hj⟩ := rfl
      rw [this, ih (n + 1) j hj hj2]
      have harith : n + 1 + j = n + (j + 1) := by omega
      rw [harith]
      rfl

theorem getD_of_lt {α : Type} (l : List α) (d : α) (n : Nat) (h : n < l.length) :
    l.getD n d = l.get ⟨n, h⟩ := by
  rw [List.getD_eq_getElem _ _ h]
  exact (List.get_eq_getElem l ⟨n, h⟩).symm

theorem add_rolling_length (games : List GameRecord) :
    (add_rolling_features games).length = (sortGames games).length := by
  simp [add_rolling_features, idxFrom_length]

theorem add_rolling_get (games : List GameRecord) (i : Nat)
    (h : i < (sortGames games).length) (h2 : i < (add_rolling_features games).length) :
    (add_rolling_features games).get ⟨i, h2⟩
      = rollingRowAt (sortGames games) i ((sortGames games).get ⟨i, h⟩) := by
  have hidx : i < (idxFrom 0 (sortGames games)).length := by
    rw [idxFrom_length]; exact h
  have hmap : (add_rolling_features games).get ⟨i, h2⟩
      = rollingRowAt (sortGames games)
          ((idxFrom 0 (sortGames games)).get ⟨i, hidx⟩).1
          ((idxFrom 0 (sortGames games)).get ⟨i, hidx⟩).2 := by
    simp [add_rolling_features]
  rw [hmap, idxFrom_get (sortGames games) 0 i hidx h]
  simp

/-! ### Claim theorems -/

section ConcreteEvaluation

attribute [local semireducible] Rat.mul Rat.add Rat.inv Rat.sub

/-- C1.  The no-lookahead claim fails on the code: `add_rolling_features`
sorts the `round` column as strings, so for a player with rounds 1, 2, 10,
11, 12 the round-2 game sits last in the sorted frame and its `rolling_avg_5`
is the mean of the rounds 1, 10, 11, 12 — changing the disposal count of the
round-12 game, which is chronologically later than the round-2 game, changes
the round-2 game's rolling feature from 35/2 to 45/2. -/
theorem rolling_features_use_later_games :
    specChronEarlier (gA "2" 99) (gA "12" 20) = true ∧
    specChronEarlier (gA "2" 99) (gA "12" 40) = true ∧
    rowsA = rowsA.take 4 ++ [gA "12" 20] ∧
    rowsB = rowsA.take 4 ++ [gA "12" 40] ∧
    (((add_rolling_features rowsA).filter fun r => r.round == "2").map
        fun r => r.rolling_avg_5) = [some (35 / 2 : ℚ)] ∧
    (((add_rolling_features rowsB).filter fun r => r.round == "2").map
        fun r => r.rolling_avg_5) = [some (45 / 2 : ℚ)] ∧
    (35 / 2 : ℚ) ≠ 45 / 2 := by
  decide

/-- C2.  The sort of `add_rolling_features` is not chronological: the round-2
game is chronologically earlier than the round-10 game of the same season,
but `sort_values(["player", "season", "round"])` compares the round labels as
strings and puts "10" before "2". -/
theorem sort_order_not_chronological :
    specChronEarlier (gA "2" 5) (gA "10" 7) = true ∧
    ((sortGames [gA "2" 5, gA "10" 7]).map fun r => r.round) = ["10", "2"] := by
  decide

/-- C3, counterexample to the claim as stated.  In `rowsC` the round-2 game
has exactly one chronologically earlier game (round 1), fewer than 3, yet its
`rolling_avg_5` is not null: the string sort places rounds 1, 10, 11 before
it and the code averages those three disposal counts (10, 20, 14). -/
theorem min_observation_counterexample :
    (rowsC.filter fun g => specChronEarlier g (gA "2" 99)).length = 1 ∧
    (((add_rolling_features rowsC).filter fun r => r.round == "2").map
        fun r => r.rolling_avg_5) = [some (44 / 3 : ℚ)] := by
  decide

end ConcreteEvaluation

/-- C3, amended: with "prior games" read as the rows that precede the row in
the code's sorted frame (player, then season, then round compared as a
string), the minimum-observation policy holds: `rolling_avg_5` is null iff
there are fewer than 3 such prior games and equals their arithmetic mean when
there are exactly 3; `rolling_avg_10` requires at least 5 prior games and
`rolling_std_5` at least 3; below the minimum the feature is null, never
zero-filled. -/
theorem rolling_min_observation_policy (games : List GameRecord) (i : Nat)
    (h : i < (sortGames games).length) (row : RollingRow)
    (hrow : row = (add_rolling_features games).getD i dummyRow) (pr : List ℚ)
    (hpr : pr = featPrior (sortGames games) i
        ((sortGames games).getD i dummyGame).player) :
    (row.rolling_avg_5 = none ↔ pr.length < 3) ∧
    (pr.length = 3 → row.rolling_avg_5 = some (pr.sum / 3)) ∧
    (row.rolling_avg_10 = none ↔ pr.length < 5) ∧
    (rollingStd5 row = none ↔ pr.length < 3) := by
  have h2 : i < (add_rolling_features games).length := by
    rw [add_rolling_length]; exact h
  subst hrow hpr
  rw [getD_of_lt _ _ _ h2, getD_of_lt _ _ _ h, add_rolling_get games i h h2]
  simp only [rollingRowAt]
  refine ⟨rollingMean_eq_none_iff 5 3 _ (by omega), ?_, rollingMean_eq_none_iff 10 5 _ (by omega), ?_⟩
  · intro h3
    rw [rollingMean_of_length_le 5 3 _ (by omega) (by omega), h3]
    norm_num
  · rw [rollingStd5_eq_none_iff]
    exact rollingVar_eq_none_iff 5 3 _ (by omega)

/-- Witness for C3 (amended): in `rowsD` (single-digit rounds, so string
order is chronological order) the round-4 game at sorted position 3 has
exactly 3 prior games with disposal counts 10, 12, 14, and its
`rolling_avg_5` is their mean, 12. -/
theorem rolling_min_observation_policy_witness :
    ((((add_rolling_features rowsD).getD 3 dummyRow).rolling_avg_5 = none ↔
      (featPrior (sortGames rowsD) 3 ((sortGames rowsD).getD 3 dummyGame).player).length < 3) ∧
    ((featPrior (sortGames rowsD) 3 ((sortGames rowsD).getD 3 dummyGame).player).length = 3 →
      ((add_rolling_features rowsD).getD 3 dummyRow).rolling_avg_5
        = some ((featPrior (sortGames rowsD) 3
            ((sortGames rowsD).getD 3 dummyGame).player).sum / 3)) ∧
    (((add_rolling_features rowsD).getD 3 dummyRow).rolling_avg_10 = none ↔
      (featPrior (sortGames rowsD) 3 ((sortGames rowsD).getD 3 dummyGame).player).length < 5) ∧
    (rollingStd5 ((add_rolling_features rowsD).getD 3 dummyRow) = none ↔
      (featPrior (sortGames rowsD) 3 ((sortGames rowsD).getD 3 dummyGame).player).length < 3)) :=
  rolling_min_observation_policy rowsD 3 (by decide) _ rfl _ rfl

section ConcreteEvaluationTwo

attribute [local semireducible] Rat.mul Rat.add Rat.inv Rat.sub

/-- C4.  The completeness gate: `build_features` drops rows once, after all
enrichment stages, keeping exactly the enriched rows whose `rolling_avg_5` is
non-null, so the final table has no null `rolling_avg_5`.  Concretely, of the
four enriched rows of `rowsD` only the round-4 row survives, and it is kept
even though its `rolling_avg_10`, cross-reference features (and, for `rowsE`,
its round ordinal) are null. -/
theorem completeness_gate :
    (∀ (games : List GameRecord) (opp ven : StatTable),
      build_features_pipeline games opp ven
        = (enriched_table games opp ven).filter (fun r => r.rolling_avg_5.isSome) ∧
      ((build_features_pipeline games opp ven).all fun r => r.rolling_avg_5.isSome) = true) ∧
    ((build_features_pipeline rowsD emptyT emptyT).map fun r =>
        (r.round, r.rolling_avg_5, r.rolling_avg_10, r.career_da_vs_opponent,
          r.career_da_at_venue)) = [("4", some 12, none, none, none)] ∧
    (enriched_table rowsD emptyT emptyT).length = 4 ∧
    ((build_features_pipeline rowsE emptyT emptyT).map fun r =>
        (r.round, r.rolling_avg_5.isSome, r.round_num)) = [("TBD", true, none)] := by
  refine ⟨fun games opp ven => ⟨rfl, ?_⟩, by decide, by decide, by decide⟩
  rw [List.all_eq_true]
  intro r hr
  exact (List.mem_filter.mp hr).2

/-- C5.  The quality filter: a row survives the first pass iff its game-time
percentage is present and at least `MIN_GAME_PCT` (= 50); a row survives the
whole filter iff additionally its player's mean disposal count over the rows
that passed the first pass is defined and at least 8 — the threshold is
inclusive, so a single-row player with mean exactly 8 is retained, and a
player with no qualifying rows has no mean and hence no surviving rows. -/
theorem quality_filter_characterization :
    (∀ (games : List GameRecord) (r : GameRecord),
      (r ∈ pct_filtered games ↔
        r ∈ games ∧ ∃ p, r.game_pct = some p ∧ MIN_GAME_PCT ≤ p) ∧
      (r ∈ load_data_filter games ↔ r ∈ pct_filtered games ∧
        ∃ m, playerMean (pct_filtered games) r.player = some m ∧ 8 ≤ m)) ∧
    load_data_filter [gA "1" 8] = [gA "1" 8] := by
  refine ⟨fun games r => ⟨?_, ?_⟩, by decide⟩
  · rw [pct_filtered, List.mem_filter]
    cases hgp : r.game_pct with
    | none => simp [hgp]
    | some p => simp [hgp, decide_eq_true_iff]
  · rw [load_data_filter, List.mem_filter]
    cases hm : playerMean (pct_filtered games) r.player with
    | none => simp [hm]
    | some m => simp [hm, decide_eq_true_iff]

end ConcreteEvaluationTwo

/-- C6.  The cross-reference joiner yields null — never zero or a population
average — whenever the lookup key is absent: the player missing from the
table's index, the opponent (or venue) missing from its columns, a NaN cell,
or a missing venue value; and the joiner keeps every row, only adding the two
columns, with `career_da_vs_opponent` the row-wise opponent lookup. -/
theorem missing_cross_reference_null (opp ven : StatTable) (rows : List RollingRow)
    (p o vn : String) :
    (p ∉ opp.index ∨ o ∉ opp.columns ∨ opp.cells.lookup (p, o) = none →
      get_opponent_da opp p o = none) ∧
    (p ∉ ven.index ∨ vn ∉ ven.columns ∨ ven.cells.lookup (p, vn) = none →
      get_venue_da ven p (some vn) = none) ∧
    get_venue_da ven p none = none ∧
    ((add_opponent_venue_features opp ven rows).map fun r => r.toRollingRow) = rows ∧
    ((add_opponent_venue_features opp ven rows).map fun r => r.career_da_vs_opponent)
      = rows.map fun r => get_opponent_da opp r.player r.opponent := by
  refine ⟨?_, ?_, rfl, ?_, ?_⟩
  · intro hmiss
    unfold get_opponent_da
    rcases hmiss with h | h | h
    · simp [h]
    · simp [h]
    · split
      · exact h
      · rfl
  · intro hmiss
    show (if p ∈ ven.index ∧ vn ∈ ven.columns then ven.cells.lookup (p, vn) else none) = none
    rcases hmiss with h | h | h
    · simp [h]
    · simp [h]
    · split
      · exact h
      · rfl
  · rw [add_opponent_venue_features, List.map_map]
    exact List.map_id rows
  · rw [add_opponent_venue_features, List.map_map]
    rfl

/-- Witness for C6: a grid containing the pair ("P", "O") but with a NaN cell
yields a null opponent feature, and an unknown venue yields a null venue
feature. -/
theorem missing_cross_reference_null_witness :
    get_opponent_da oppT "P" "O" = none ∧ get_venue_da emptyT "P" (some "V") = none :=
  ⟨(missing_cross_reference_null oppT emptyT [] "P" "O" "V").1 (Or.inr (Or.inr rfl)),
   (missing_cross_reference_null oppT emptyT [] "P" "O" "V").2.1 (Or.inl (by decide))⟩

/-- C7.  The round normalizer: every numeric (all-digit) label maps to its
decimal value, every non-numeric label outside the five finals codes maps to
null, and on the concrete inputs "1", "23", "QF", "EF", "SF", "PF", "GF",
"TBD" it yields 1, 23, 25, 25, 26, 27, 28, null. -/
theorem round_normalizer_mapping :
    (∀ s : String, isNumStr (pyStrip s) = true →
      parse_round s = some (natOfDigits (pyStrip s))) ∧
    (∀ s : String, isNumStr (pyStrip s) = false →
      pyStrip s ∉ (["QF", "EF", "SF", "PF", "GF"] : List String) →
      parse_round s = none) ∧
    parse_round "1" = some 1 ∧ parse_round "23" = some 23 ∧
    parse_round "QF" = some 25 ∧ parse_round "EF" = some 25 ∧
    parse_round "SF" = some 26 ∧ parse_round "PF" = some 27 ∧
    parse_round "GF" = some 28 ∧ parse_round "TBD" = none := by
  refine ⟨?_, ?_, by decide, by decide, by decide, by decide, by decide,
    by decide, by decide, by decide⟩
  · intro s hs
    simp [parse_round, hs]
  · intro s hs hmem
    simp only [List.mem_cons, List.not_mem_nil, or_false, not_or] at hmem
    obtain ⟨h1, h2, h3, h4, h5⟩ := hmem
    simp [parse_round, hs, h1, h2, h3, h4, h5]

/-- Witness for C7: "7" is numeric and maps to its value; "ZZZ" is
unrecognized and maps to null. -/
theorem round_normalizer_mapping_witness :
    parse_round "7" = some (natOfDigits (pyStrip "7")) ∧ parse_round "ZZZ" = none :=
  ⟨round_normalizer_mapping.1 "7" (by decide),
   round_normalizer_mapping.2.1 "ZZZ" (by decide) (by decide)⟩

/-- C8.  All-or-nothing: the orchestrator yields a table exactly when all
three upstream artifacts load, and when they do, the pipeline is a total
function — per-row anomalies are nulls inside the produced table, never a
failure of the run. -/
theorem all_or_nothing_failure :
    (∀ (g : Option (List GameRecord)) (o v : Option StatTable),
      (build_features g o v).isSome = (g.isSome && o.isSome && v.isSome)) ∧
    (∀ (games : List GameRecord) (opp ven : StatTable),
      build_features (some games) (some opp) (some ven)
        = some (build_features_pipeline games opp ven)) := by
  refine ⟨fun g o v => ?_, fun _ _ _ => rfl⟩
  cases g <;> cases o <;> cases v <;> rfl

/-- C9.  The target labeler: for every row and every configured threshold t,
the column hit_t_disposals is defined and equals 1 if the row's disposal
count is at least t, else 0; a row with 20 disposals gets 1, 1, 0 for the
default thresholds 15, 20, 25. -/
theorem target_labeler_correct :
    (∀ rows : List OppVenueRow,
      ((add_target_variables rows).all fun r =>
        DISPOSAL_TARGETS.all fun t =>
          r.hits.lookup t == some (if (t : Int) ≤ r.disposals then 1 else 0)) = true) ∧
    ((add_target_variables [rA20]).map fun r => r.hits)
      = [[(15, 1), (20, 1), (25, 0)]] := by
  refine ⟨fun rows => ?_, by decide⟩
  rw [List.all_eq_true]
  intro r hr
  rw [add_target_variables] at hr
  obtain ⟨x, hx, rfl⟩ := List.mem_map.mp hr
  simp [DISPOSAL_TARGETS, List.lookup]

/-- C10.  Because the game-log schema has no venue column, the joiner's venue
lookup never finds a venue and `career_da_at_venue` is null on every output
row, whatever the venue table holds — both at the joiner stage and in the
final table. -/
theorem venue_feature_always_null :
    (∀ (opp ven : StatTable) (rows : List RollingRow),
      ((add_opponent_venue_features opp ven rows).all
        fun r => r.career_da_at_venue == none) = true) ∧
    (∀ (games : List GameRecord) (opp ven : StatTable),
      ((build_features_pipeline games opp ven).all
        fun r => r.career_da_at_venue == none) = true) := by
  constructor
  · intro opp ven rows
    rw [List.all_eq_true]
    intro r hr
    obtain ⟨x, hx, rfl⟩ := List.mem_map.mp hr
    rfl
  · intro games opp ven
    rw [List.all_eq_true]
    intro r hr
    rw [build_features_pipeline] at hr
    have hr2 := (List.mem_filter.mp hr).1
    rw [enriched_table, add_home_away_feature] at hr2
    obtain ⟨x, hx, rfl⟩ := List.mem_map.mp hr2
    rw [add_target_variables] at hx
    obtain ⟨y, hy, rfl⟩ := List.mem_map.mp hx
    rw [add_opponent_venue_features] at hy
    obtain ⟨z, hz, rfl⟩ := List.mem_map.mp hy
    rfl

end AFL
